import Mathlib

/-!
Verification of the numeric-formatting core of the CLUE header library
(`src/include/clue/formatting_base.hpp`) and the value-range iterator
(`src/include/cppstdx/value_range.hpp`), as a shallow embedding in Lean.

Integers are modelled as `Int` (the formatters are templates over any
integral type); character buffers are modelled as `List Char` holding the
characters a write stores (terminator included); a failed `assert` /
`CLUE_ASSERT` contract check is modelled as `none`.
-/

namespace Clue

/-! ## Formatting flags (formatting_base.hpp, lines 22-30) -/

/-- Flag `upper_case = 0x01`. -/
def upper_case : Nat := 1

/-- Flag `pad_zeros = 0x02`. -/
def pad_zeros : Nat := 2

/-- Flag `plus_sign = 0x04`. -/
def plus_sign : Nat := 4

/-- Flag `left_just = 0x08` (defined but unused by the numeric formatters). -/
def left_just : Nat := 8

/-- Flag `quoted = 0x10` (defined but unused by the numeric formatters). -/
def quoted : Nat := 16

/-- The bit test `flags_ & msk` used by every formatter's `any` member. -/
def anyFlag (flags msk : Nat) : Bool := flags.land msk != 0

/-! ## Digit extraction primitives

The bodies of `details::uabs`, `details::ndigits_oct/dec/hex`,
`details::extract_digits` and `details::extract_digits_dec` live in
`clue/internal/numfmt.hpp`, which is not among the provided sources;
they are modelled from the spec (section 4.1). -/

/-- Modelled from the spec: `details::uabs` (clue/internal/numfmt.hpp is not
under src/) — the unsigned magnitude of an integer value. -/
def uabs (x : Int) : Nat := x.natAbs

/-- Worker for the digit counts: structural recursion on a fuel argument so
that it evaluates by kernel reduction; with `fuel ≥ u` it counts the base-`b`
digits of `u` (0 takes one digit). -/
def ndigitsAux (b : Nat) : Nat → Nat → Nat
  | 0, _ => 1
  | fuel + 1, u => if u < b then 1 else 1 + ndigitsAux b fuel (u / b)

/-- Modelled from the spec: `details::ndigits_oct` — count of digits needed
to represent `u` in base 8. -/
def ndigits_oct (u : Nat) : Nat := ndigitsAux 8 u u

/-- Modelled from the spec: `details::ndigits_dec` — count of digits needed
to represent `u` in base 10. -/
def ndigits_dec (u : Nat) : Nat := ndigitsAux 10 u u

/-- Modelled from the spec: `details::ndigits_hex` — count of digits needed
to represent `u` in base 16. -/
def ndigits_hex (u : Nat) : Nat := ndigitsAux 16 u u

/-- The `switch` of `clue::fmt::ndigits` (formatting_base.hpp 61-70), applied
to the unsigned magnitude. -/
def ndigits_u (u : Nat) (base : Nat) : Nat :=
  if base = 8 then ndigits_oct u
  else if base = 10 then ndigits_dec u
  else if base = 16 then ndigits_hex u
  else 0

/-- `clue::fmt::ndigits` (formatting_base.hpp 61-70): `uabs` then the
base switch. -/
def ndigits (x : Int) (base : Nat) : Nat := ndigits_u (uabs x) base

/-- The character for digit value `d`, uppercase letters above 9 when
`upper` is set. -/
def digitChar (upper : Bool) (d : Nat) : Char :=
  if d < 10 then Char.ofNat (48 + d)
  else if upper then Char.ofNat (55 + d)
  else Char.ofNat (87 + d)

/-- Modelled from the spec: `details::extract_digits` — writes exactly
`count` digit characters of `u` in base `base`, most-significant digit
first, uppercase letters per the flag. -/
def extract_digits (u base : Nat) (upper : Bool) : Nat → List Char
  | 0 => []
  | n + 1 => extract_digits (u / base) base upper n ++ [digitChar upper (u % base)]

/-- Modelled from the spec: `details::extract_digits_dec` — the decimal
specialization of `extract_digits`. -/
def extract_digits_dec (u : Nat) (count : Nat) : List Char :=
  extract_digits u 10 false count

/-! ## Spec-side digit count

An independent definition of "count of digits needed to represent `u` in
base `b`", recursing the way the spec describes it, used to state the
claims about `ndigits`. -/

/-- Spec-side digit count: the number of base-`b` digits of `u`
(`0` takes one digit). -/
def digitCount (b u : Nat) : Nat :=
  if h : b ≤ 1 ∨ u < b then 1 else 1 + digitCount b (u / b)
termination_by u
decreasing_by
  exact Nat.div_lt_self (by omega) (by omega)

/-! ## Integer formatter (formatting_base.hpp 79-224) -/

/-- `clue::fmt::int_formatter`: numeric base, minimum field width, flag set. -/
structure int_formatter where
  base : Nat
  width : Nat
  flags : Nat
deriving DecidableEq

/-- `int_formatter::any(msk)`: bit test against the flag set. -/
def int_formatter.any (fmt : int_formatter) (msk : Nat) : Bool :=
  anyFlag fmt.flags msk

/-- `int_formatter::max_formatted_length` (formatting_base.hpp 123-128):
digit count, plus one for the sign when `x < 0` or the plus-sign flag is
set, clamped below by the width. -/
def int_formatter.max_formatted_length (fmt : int_formatter) (x : Int) : Nat :=
  let n := ndigits x fmt.base
  let n := if x < 0 ∨ fmt.any plus_sign then n + 1 else n
  if n > fmt.width then n else fmt.width

/-- The sign character of `int_formatter::formatted_write`
(`x < 0 ? '-' : (any(plus_sign) ? '+' : '\0')`), as the list of sign
characters actually stored (empty when the sign is NUL). -/
def int_formatter.sign_list (fmt : int_formatter) (x : Int) : List Char :=
  if x < 0 then ['-'] else if fmt.any plus_sign then ['+'] else []

/-- The fill-and-sign prefix stored by `int_formatter::formatted_write`
before the digits (formatting_base.hpp 138-153): zero padding puts the
sign before the fill zeros, space padding puts the sign after the fill
spaces, and without width padding only the sign is stored. -/
def int_formatter.pad_list (fmt : int_formatter) (x : Int) (nd : Nat) : List Char :=
  let sign := fmt.sign_list x
  let flen := nd + sign.length
  if fmt.width > flen then
    if fmt.any pad_zeros then sign ++ List.replicate (fmt.width - flen) '0'
    else List.replicate (fmt.width - flen) ' ' ++ sign
  else sign

/-- `int_formatter::formatted_write` (formatting_base.hpp 131-157): returns
the characters stored into the buffer (terminator included) and the
function's return value; `none` models a failed `assert(buf_len > flen)`. -/
def int_formatter.formatted_write (fmt : int_formatter) (x : Int)
    (buf_len : Nat) : Option (List Char × Nat) :=
  let ax := uabs x
  let nd := ndigits_u ax fmt.base
  let flen := nd + (fmt.sign_list x).length
  if buf_len > flen then
    let pad := fmt.pad_list x nd
    some (pad ++ extract_digits ax fmt.base (fmt.any upper_case) nd ++ [Char.ofNat 0],
          pad.length + nd)
  else none

/-- `clue::fmt::oct_fmt()`. -/
def oct_fmt : int_formatter := ⟨8, 0, 0⟩

/-- `clue::fmt::dec_fmt()`. -/
def dec_fmt : int_formatter := ⟨10, 0, 0⟩

/-- `clue::fmt::hex_fmt()`. -/
def hex_fmt : int_formatter := ⟨16, 0, 0⟩

/-- `default_int_formatter::max_formatted_length` (formatting_base.hpp
195-200): decimal digits plus one when negative, no width clamp. -/
def default_int_formatter.max_formatted_length (x : Int) : Nat :=
  let n := ndigits_dec (uabs x)
  if x < 0 then n + 1 else n

/-- `default_int_formatter::formatted_write` (formatting_base.hpp 202-219):
optional minus sign, decimal digits, terminator; `none` models the failed
`CLUE_ASSERT(buf_len > flen)`. -/
def default_int_formatter.formatted_write (x : Int)
    (buf_len : Nat) : Option (List Char × Nat) :=
  let ax := uabs x
  let nd := ndigits_dec ax
  let flen := if x < 0 then nd + 1 else nd
  if buf_len > flen then
    some ((if x < 0 then ['-'] else []) ++ extract_digits_dec ax nd ++ [Char.ofNat 0],
          flen)
  else none

/-! ## Float formatter length for non-finite values
(formatting_base.hpp 265-334) -/

/-- Classification of a `double` as branched on by
`float_formatter::max_formatted_length`: finite (carrying the result of
the delegated `maxfmtlength` computation, whose source —
`clue/internal/numfmt.hpp` — is not under src/), infinity with its sign
bit, or NaN with its sign bit. -/
inductive FloatClass where
  | finite (maxfmt : Nat)
  | inf (negative : Bool)
  | nan (negative : Bool)
deriving DecidableEq

/-- `clue::fmt::float_formatter`: minimum width, precision, flag set
(the notation tag does not affect the non-finite length logic). -/
structure float_formatter where
  width : Nat
  precision : Nat
  flags : Nat
deriving DecidableEq

/-- `float_formatter::any(msk)`. -/
def float_formatter.any (fmt : float_formatter) (msk : Nat) : Bool :=
  anyFlag fmt.flags msk

/-- `float_formatter::max_formatted_length` (formatting_base.hpp 310-321):
finite values delegate to `maxfmtlength` (modelled as the value carried by
`FloatClass.finite`); infinities give 4 when the sign bit or plus flag is
set, else 3; NaN gives 4 only when the plus flag is set; the result is
clamped below by the width. -/
def float_formatter.max_formatted_length (fmt : float_formatter)
    (x : FloatClass) : Nat :=
  let n :=
    match x with
    | .finite m => m
    | .inf neg => if neg || fmt.any plus_sign then 4 else 3
    | .nan _ => if fmt.any plus_sign then 4 else 3
  if n > fmt.width then n else fmt.width

/-! ## Generic formatting facade (formatting_base.hpp 376-408) -/

/-- A formatter as consumed by `strf`: the two member functions `strf`
calls, with `formatted_write` in the buffer model used above. -/
structure Formatter (α : Type) where
  max_formatted_length : α → Nat
  formatted_write : α → Nat → Option (List Char × Nat)

/-- `clue::fmt::strf` (formatting_base.hpp 392-402): allocate a string of
`max_formatted_length` NUL characters, call `formatted_write` with capacity
one more, check `wlen <= fmt_len` (`none` models the failed `CLUE_ASSERT`),
and shrink the string to `wlen` characters. -/
def strf {α : Type} (fmt : Formatter α) (x : α) : Option (List Char) :=
  let fmt_len := fmt.max_formatted_length x
  match fmt.formatted_write x (fmt_len + 1) with
  | none => none
  | some (content, wlen) =>
    let buffer := content.take fmt_len ++
      List.replicate (fmt_len - content.length) (Char.ofNat 0)
    if wlen ≤ fmt_len then some (buffer.take wlen) else none

/-- `default_int_fmt()` packaged for `strf`, as `default_formatter`
selects it for integral types. -/
def default_int_fmt : Formatter Int :=
  ⟨default_int_formatter.max_formatted_length, default_int_formatter.formatted_write⟩

/-- `int_formatter` packaged for `strf`. -/
def int_formatter.toFormatter (fmt : int_formatter) : Formatter Int :=
  ⟨fmt.max_formatted_length, fmt.formatted_write⟩

/-- `clue::fmt::str` on an integral value: `strf` with the default
formatter. -/
def str_int (x : Int) : Option (List Char) := strf default_int_fmt x

/-! ## value_range iterator (value_range.hpp 42-142) -/

/-- `cppstdx::details::value_range_iterator` over an integral type with the
default `range_traits`: its stored value. -/
structure value_range_iterator where
  v : Int
deriving DecidableEq

/-- Pre-decrement `operator--` (value_range.hpp 103-106): calls
`traits_.decrement(v_)`. -/
def value_range_iterator.preDec (it : value_range_iterator) :
    value_range_iterator := ⟨it.v - 1⟩

/-- Post-increment `operator++(int)` (value_range.hpp 108-112): saves the
value, increments, returns an iterator at the saved value. Result is
(new state, returned iterator). -/
def value_range_iterator.postInc (it : value_range_iterator) :
    value_range_iterator × value_range_iterator := (⟨it.v + 1⟩, ⟨it.v⟩)

/-- Post-decrement `operator--(int)` (value_range.hpp 114-118), exactly as
written: saves the value, calls `traits_.increment(v_)` (not `decrement`),
returns an iterator at the saved value. Result is (new state, returned
iterator). -/
def value_range_iterator.postDec (it : value_range_iterator) :
    value_range_iterator × value_range_iterator := (⟨it.v + 1⟩, ⟨it.v⟩)

/-! ## Helper lemmas -/

/-- With enough fuel, the fuelled digit counter agrees with the spec-side
digit count. -/
theorem ndigitsAux_eq_digitCount (b : Nat) (hb : 2 ≤ b) :
    ∀ fuel u, u ≤ fuel → ndigitsAux b fuel u = digitCount b u := by
  intro fuel
  induction fuel with
  | zero =>
    intro u hu
    have hu0 : u = 0 := by omega
    subst hu0
    rw [digitCount]
    have hpos : (0 : Nat) < b := by omega
    simp [ndigitsAux, hpos]
  | succ n ih =>
    intro u hu
    rw [digitCount]
    by_cases h : u < b
    · simp [ndigitsAux, h]
    · have hcond : ¬ (b ≤ 1 ∨ u < b) := by omega
      have hdiv : u / b < u := Nat.div_lt_self (by omega) (by omega)
      simp only [ndigitsAux, if_neg h, dif_neg hcond]
      rw [ih (u / b) (by omega)]

/-- For the supported bases, `ndigits_u` is the spec-side digit count. -/
theorem ndigits_u_eq_digitCount (u : Nat) (b : Nat)
    (hb : b = 8 ∨ b = 10 ∨ b = 16) : ndigits_u u b = digitCount b u := by
  rcases hb with rfl | rfl | rfl <;>
    exact ndigitsAux_eq_digitCount _ (by omega) u u le_rfl

/-- The number of sign characters stored matches the sign condition of
`max_formatted_length`. -/
theorem sign_list_length (fmt : int_formatter) (x : Int) :
    (fmt.sign_list x).length = if x < 0 ∨ fmt.any plus_sign then 1 else 0 := by
  unfold int_formatter.sign_list
  by_cases h1 : x < 0
  · rw [if_pos h1, if_pos (Or.inl h1)]; rfl
  · by_cases h2 : fmt.any plus_sign = true
    · rw [if_neg h1, if_pos h2, if_pos (Or.inr h2)]; rfl
    · rw [if_neg h1, if_neg h2, if_neg (not_or.mpr ⟨h1, h2⟩)]; rfl

/-- `extract_digits` writes exactly `count` characters. -/
theorem extract_digits_length (base : Nat) (upper : Bool) :
    ∀ count, ∀ v, (extract_digits v base upper count).length = count := by
  intro count
  induction count with
  | zero => intro v; rfl
  | succ n ih => intro v; simp [extract_digits, ih]

/-- `max_formatted_length` as a `max`, with the sign counted through
`sign_list`. -/
theorem int_max_formatted_length_eq_max (fmt : int_formatter) (x : Int) :
    fmt.max_formatted_length x =
      max fmt.width (ndigits_u (uabs x) fmt.base + (fmt.sign_list x).length) := by
  rw [sign_list_length]
  simp only [int_formatter.max_formatted_length, ndigits]
  split_ifs <;> omega

/-- The length of the pad-and-sign prefix: exactly what is needed to bring
the total up to `max(width, nd + sign)`. -/
theorem pad_list_length (fmt : int_formatter) (x : Int) (nd : Nat) :
    (fmt.pad_list x nd).length =
      max fmt.width (nd + (fmt.sign_list x).length) - nd := by
  simp only [int_formatter.pad_list]
  split_ifs <;>
    first
    | (simp only [List.length_append, List.length_replicate]; omega)
    | omega

/-- With a buffer strictly larger than `max_formatted_length`,
`int_formatter::formatted_write` succeeds, returns exactly
`max_formatted_length`, and stores exactly that many characters plus the
terminator. -/
theorem int_write_spec (fmt : int_formatter) (x : Int) (buf_len : Nat)
    (hcap : fmt.max_formatted_length x < buf_len) :
    ∃ cs, fmt.formatted_write x buf_len = some (cs, fmt.max_formatted_length x) ∧
      cs.length = fmt.max_formatted_length x + 1 := by
  have hml := int_max_formatted_length_eq_max fmt x
  have hpl := pad_list_length fmt x (ndigits_u (uabs x) fmt.base)
  simp only [int_formatter.formatted_write]
  rw [if_pos (show buf_len > ndigits_u (uabs x) fmt.base + (fmt.sign_list x).length
    by omega)]
  have hret : (fmt.pad_list x (ndigits_u (uabs x) fmt.base)).length +
      ndigits_u (uabs x) fmt.base = fmt.max_formatted_length x := by omega
  rw [hret]
  refine ⟨_, rfl, ?_⟩
  simp only [List.length_append, extract_digits_length, List.length_singleton]
  omega

/-- With a buffer strictly larger than its `max_formatted_length`,
`default_int_formatter::formatted_write` succeeds, returns exactly
`max_formatted_length`, and stores that many characters plus the
terminator. -/
theorem default_int_write_spec (x : Int) (buf_len : Nat)
    (hcap : default_int_formatter.max_formatted_length x < buf_len) :
    ∃ cs, default_int_formatter.formatted_write x buf_len =
        some (cs, default_int_formatter.max_formatted_length x) ∧
      cs.length = default_int_formatter.max_formatted_length x + 1 := by
  simp only [default_int_formatter.formatted_write,
    default_int_formatter.max_formatted_length] at *
  by_cases hneg : x < 0 <;>
    [simp only [if_pos hneg] at *; simp only [if_neg hneg] at *] <;>
    rw [if_pos (by omega)] <;>
    exact ⟨_, rfl, by
      simp [extract_digits_dec, extract_digits_length, List.length_append]⟩

/-! ## Claims -/

/-- C6: `ndigits(x, base)` returns 0 for every base outside {8, 10, 16},
and for base 8, 10 or 16 it returns the count of digits needed to represent
the unsigned magnitude of `x` in that base. -/
theorem C6_ndigits_cases (x : Int) (b : Nat) :
    (b ≠ 8 → b ≠ 10 → b ≠ 16 → ndigits x b = 0) ∧
    ((b = 8 ∨ b = 10 ∨ b = 16) → ndigits x b = digitCount b (uabs x)) := by
  constructor
  · intro h8 h10 h16
    simp [ndigits, ndigits_u, h8, h10, h16]
  · intro hb
    show ndigits_u (uabs x) b = digitCount b (uabs x)
    exact ndigits_u_eq_digitCount (uabs x) b hb

/-- Concrete instance of C6 at the unsupported base 12 and the supported
base 16, on the value 255. -/
theorem C6_ndigits_cases_w :
    ndigits 255 12 = 0 ∧ ndigits 255 16 = digitCount 16 (uabs 255) :=
  ⟨(C6_ndigits_cases 255 12).1 (by decide) (by decide) (by decide),
   (C6_ndigits_cases 255 16).2 (Or.inr (Or.inr rfl))⟩

/-- C3: for base in {8, 10, 16}, `max_formatted_length(x)` equals the
maximum of the configured width and the digit count of |x| in the base,
plus 1 when `x` is negative or the plus-sign flag is set. -/
theorem C3_max_formatted_length_eq (fmt : int_formatter) (x : Int)
    (hb : fmt.base = 8 ∨ fmt.base = 10 ∨ fmt.base = 16) :
    fmt.max_formatted_length x =
      max fmt.width
        (digitCount fmt.base (uabs x) +
          (if x < 0 ∨ fmt.any plus_sign then 1 else 0)) := by
  rw [int_max_formatted_length_eq_max, sign_list_length,
    ndigits_u_eq_digitCount (uabs x) fmt.base hb]

/-- Concrete instance of C3: decimal formatter, width 5, plus-sign flag,
value 42. -/
theorem C3_max_formatted_length_eq_w :
    int_formatter.max_formatted_length ⟨10, 5, 4⟩ 42 =
      max 5 (digitCount 10 (uabs 42) +
        (if (42 : Int) < 0 ∨ int_formatter.any ⟨10, 5, 4⟩ plus_sign then 1 else 0)) :=
  C3_max_formatted_length_eq ⟨10, 5, 4⟩ 42 (Or.inr (Or.inl rfl))

/-- C9: for a supported base and a sufficiently large buffer,
`int_formatter::formatted_write` returns exactly `max_formatted_length(x)`:
the advertised bound is always tight, because width padding fills the field
up to the bound. -/
theorem C9_write_tight (fmt : int_formatter) (x : Int) (buf_len : Nat)
    (hb : fmt.base = 8 ∨ fmt.base = 10 ∨ fmt.base = 16)
    (hcap : fmt.max_formatted_length x < buf_len) :
    ∃ cs, fmt.formatted_write x buf_len =
      some (cs, fmt.max_formatted_length x) := by
  rcases hb with _ | _ | _ <;>
    · obtain ⟨cs, h1, _⟩ := int_write_spec fmt x buf_len hcap
      exact ⟨cs, h1⟩

/-- Concrete instance of C9: hexadecimal formatter with width 4 and
zero-pad flag on 255 with buffer capacity 6. -/
theorem C9_write_tight_w :
    ∃ cs, int_formatter.formatted_write ⟨16, 4, 2⟩ 255 6 =
      some (cs, int_formatter.max_formatted_length ⟨16, 4, 2⟩ 255) :=
  C9_write_tight ⟨16, 4, 2⟩ 255 6 (Or.inr (Or.inr rfl)) (by decide)

/-- C1: with a buffer of capacity at least `max_formatted_length(x) + 1`,
`int_formatter::formatted_write` (for a base consistent with the data
model) and `default_int_formatter::formatted_write` both succeed, return at
most `max_formatted_length(x)` characters written before the terminator,
and store at most `max_formatted_length(x) + 1` characters in total
(terminator included). -/
theorem C1_write_bounded (fmt : int_formatter) (x : Int) (buf_len dbuf_len : Nat)
    (hb : fmt.base = 8 ∨ fmt.base = 10 ∨ fmt.base = 16)
    (hcap : fmt.max_formatted_length x + 1 ≤ buf_len)
    (hdcap : default_int_formatter.max_formatted_length x + 1 ≤ dbuf_len) :
    (∃ cs r, fmt.formatted_write x buf_len = some (cs, r) ∧
       r ≤ fmt.max_formatted_length x ∧
       cs.length ≤ fmt.max_formatted_length x + 1) ∧
    (∃ cs r, default_int_formatter.formatted_write x dbuf_len = some (cs, r) ∧
       r ≤ default_int_formatter.max_formatted_length x ∧
       cs.length ≤ default_int_formatter.max_formatted_length x + 1) := by
  rcases hb with _ | _ | _ <;>
    · constructor
      · obtain ⟨cs, h1, h2⟩ := int_write_spec fmt x buf_len (by omega)
        exact ⟨cs, _, h1, le_rfl, by omega⟩
      · obtain ⟨cs, h1, h2⟩ := default_int_write_spec x dbuf_len (by omega)
        exact ⟨cs, _, h1, le_rfl, by omega⟩

/-- Concrete instance of C1: the plain decimal formatter and the default
formatter on -42 with buffers of exactly the advertised bound plus one. -/
theorem C1_write_bounded_w :
    (∃ cs r, int_formatter.formatted_write ⟨10, 0, 0⟩ (-42) 4 = some (cs, r) ∧
       r ≤ int_formatter.max_formatted_length ⟨10, 0, 0⟩ (-42) ∧
       cs.length ≤ int_formatter.max_formatted_length ⟨10, 0, 0⟩ (-42) + 1) ∧
    (∃ cs r, default_int_formatter.formatted_write (-42) 4 = some (cs, r) ∧
       r ≤ default_int_formatter.max_formatted_length (-42) ∧
       cs.length ≤ default_int_formatter.max_formatted_length (-42) + 1) :=
  C1_write_bounded ⟨10, 0, 0⟩ (-42) 4 4 (Or.inr (Or.inl rfl))
    (by decide) (by decide)

/-- C4: when the minimum width exceeds the signed digit count, zero-padding
stores the sign (when present) first, then the fill zeros, then the digits;
space padding stores the fill spaces first, then the sign (when present)
immediately before the digits. -/
theorem C4_padding_layout (fmt : int_formatter) (x : Int) (buf_len : Nat)
    (hw : fmt.width > ndigits x fmt.base + (fmt.sign_list x).length)
    (hcap : buf_len > ndigits x fmt.base + (fmt.sign_list x).length) :
    fmt.formatted_write x buf_len = some (
      (if fmt.any pad_zeros then
        fmt.sign_list x ++
          List.replicate
            (fmt.width - (ndigits x fmt.base + (fmt.sign_list x).length)) '0'
      else
        List.replicate
            (fmt.width - (ndigits x fmt.base + (fmt.sign_list x).length)) ' ' ++
          fmt.sign_list x) ++
      extract_digits (uabs x) fmt.base (fmt.any upper_case) (ndigits x fmt.base) ++
      [Char.ofNat 0],
      fmt.width) := by
  simp only [ndigits] at hw hcap ⊢
  simp only [int_formatter.formatted_write, int_formatter.pad_list]
  rw [if_pos hcap, if_pos hw]
  simp only [Option.some.injEq, Prod.mk.injEq, true_and]
  by_cases hz : fmt.any pad_zeros <;>
    simp [hz, List.length_append, List.length_replicate] <;> omega

/-- Concrete instance of C4: decimal formatter, width 5, zero-pad flag, on
-42 — the minus sign precedes the fill zeros. -/
theorem C4_padding_layout_w :
    int_formatter.formatted_write ⟨10, 5, 2⟩ (-42) 6 =
      some (['-', '0', '0', '4', '2', Char.ofNat 0], 5) := by
  rw [C4_padding_layout ⟨10, 5, 2⟩ (-42) 6 (by decide) (by decide)]
  decide

/-- C5: the example outputs of the integer formatting paths: `str(0)`,
`str(-5)`, hex formatter with uppercase flag on 255, decimal formatter with
width 5 and zero-pad on 42, width 5 without zero-pad on 42, and plus-sign
flag on 7. -/
theorem C5_examples :
    str_int 0 = some ['0'] ∧
    str_int (-5) = some ['-', '5'] ∧
    strf (int_formatter.toFormatter ⟨16, 0, 1⟩) 255 = some ['F', 'F'] ∧
    strf (int_formatter.toFormatter ⟨10, 5, 2⟩) 42 = some ['0', '0', '0', '4', '2'] ∧
    strf (int_formatter.toFormatter ⟨10, 5, 0⟩) 42 = some [' ', ' ', ' ', '4', '2'] ∧
    strf (int_formatter.toFormatter ⟨10, 0, 4⟩) 7 = some ['+', '7'] := by
  decide

/-- C7 as stated fails: with minimum width 5, `max_formatted_length` for
positive infinity without any flags is 5, not 3 — the final width clamp of
`float_formatter::max_formatted_length` applies to non-finite values too. -/
theorem C7_cex :
    float_formatter.max_formatted_length ⟨5, 6, 0⟩ (FloatClass.inf false) ≠ 3 ∧
    float_formatter.max_formatted_length ⟨5, 6, 0⟩ (FloatClass.inf false) = 5 := by
  decide

/-- C7 amended: on non-finite input, `max_formatted_length` is the maximum
of the configured width and the base length — for ±infinity 4 when the sign
bit or the plus-sign flag is set and 3 otherwise; for NaN 4 exactly when
the plus-sign flag is set (NaN's sign bit is ignored). -/
theorem C7_nonfinite_length (fmt : float_formatter) (neg : Bool) :
    fmt.max_formatted_length (FloatClass.inf neg) =
      max fmt.width (if neg || fmt.any plus_sign then 4 else 3) ∧
    fmt.max_formatted_length (FloatClass.nan neg) =
      max fmt.width (if fmt.any plus_sign then 4 else 3) := by
  simp only [float_formatter.max_formatted_length]
  constructor <;> split_ifs <;> omega

/-- C8: whenever the formatter's write respects the advertised bound,
`strf` returns a string whose length is exactly the count
`formatted_write` returned, at most `max_formatted_length(x)` — the result
is shrunk to the written length with no residual over-allocation. -/
theorem C8_strf_length {α : Type} (fmt : Formatter α) (x : α)
    (content : List Char) (wlen : Nat)
    (hw : fmt.formatted_write x (fmt.max_formatted_length x + 1) =
      some (content, wlen))
    (hle : wlen ≤ fmt.max_formatted_length x) :
    ∃ s, strf fmt x = some s ∧ s.length = wlen ∧
      s.length ≤ fmt.max_formatted_length x := by
  simp only [strf, hw]
  rw [if_pos hle]
  refine ⟨_, rfl, ?_, ?_⟩ <;>
    simp [List.length_take, List.length_append, List.length_replicate] <;> omega

/-- Concrete instance of C8: the default integer formatter on 42. -/
theorem C8_strf_length_w :
    ∃ s, strf default_int_fmt 42 = some s ∧ s.length = 2 ∧
      s.length ≤ default_int_fmt.max_formatted_length 42 :=
  C8_strf_length default_int_fmt 42 ['4', '2', Char.ofNat 0] 2
    (by decide) (by decide)

/-- C10: the code contradicts the claim — `operator--(int)` on a
value-range iterator positioned at 5 returns an iterator at the old value
5, but leaves the iterator at 6 (the successor), not at the predecessor 4
that the iterator's own pre-decrement produces. -/
theorem C10_postDec_bug :
    (value_range_iterator.postDec ⟨5⟩).2 = ⟨5⟩ ∧
    (value_range_iterator.postDec ⟨5⟩).1 = ⟨6⟩ ∧
    (value_range_iterator.postDec ⟨5⟩).1 ≠ value_range_iterator.preDec ⟨5⟩ ∧
    value_range_iterator.preDec ⟨5⟩ = ⟨4⟩ := by
  decide

end Clue
